import Mathlib

/-
Verification development for the QTube browser extension
(src/QTube_content.js, src/QTube_popup.js).

The definitions below are shallow embeddings of the JavaScript source:
 - the timestamp-parsing loop of callGeminiApi (QTube_content.js lines 182-215),
 - the injected player-bridge readiness/queue state machine
   (QTube_content.js lines 52-147),
 - sendMessageWithRetry (QTube_popup.js lines 63-95),
 - ensureContentScriptLoaded and its tab-session map (QTube_popup.js lines 103-165),
 - askQuestion input validation (QTube_popup.js lines 174-187),
 - the processManualTranscript message listener (QTube_popup.js lines 239-275).
-/

namespace QTube

/-! JS string helpers -/

/-- Whitespace characters recognised by the JavaScript trim and the regex
class backslash-s, restricted to the ASCII range used by this program. -/
def jsWs (c : Char) : Bool :=
  c == ' ' || c == '\t' || c == '\n' || c == '\r' || c == '\x0b' || c == '\x0c'

/-- Characters matched by an unflagged JavaScript dot: anything except a
line terminator. -/
def dotChar (c : Char) : Bool :=
  !(c == '\n' || c == '\r')

/-- Model of String.prototype.trim on a character list. -/
def jsTrimChars (cs : List Char) : List Char :=
  ((cs.dropWhile jsWs).reverse.dropWhile jsWs).reverse

/-- Model of String.prototype.trim. -/
def jsTrimString (s : String) : String :=
  String.mk (jsTrimChars s.data)

/-- Decides whether the first list is a leading segment of the second. -/
def isHeadSegment : List Char → List Char → Bool
  | [], _ => true
  | _ :: _, [] => false
  | a :: as, b :: bs => a == b && isHeadSegment as bs

/-- Model of String.prototype.includes on character lists. -/
def containsSubChars (pat : List Char) : List Char → Bool
  | [] => isHeadSegment pat []
  | c :: rest => isHeadSegment pat (c :: rest) || containsSubChars pat rest

/-- Model of String.prototype.includes. -/
def containsSub (s pat : String) : Bool :=
  containsSubChars pat.data s.data

/-- Model of String.prototype.replace with a plain-string pattern and the
empty replacement: removes the first occurrence of the pattern, if any. -/
def removeFirstOcc : List Char → List Char → List Char
  | [], _ => []
  | c :: rest, pat =>
    if isHeadSegment pat (c :: rest) then (c :: rest).drop pat.length
    else c :: removeFirstOcc rest pat

/-- Digit test for the regex class backslash-d (ASCII digits). -/
def isDig (c : Char) : Bool :=
  48 ≤ c.toNat && c.toNat ≤ 57

/-- Numeric value of an ASCII digit, as produced by parseInt. -/
def digVal (c : Char) : Nat :=
  c.toNat - 48

/-- Model of String(n).padStart(2, zero) for the minute/second values
produced by the parser (always below 100 there). -/
def pad2 (n : Nat) : String :=
  if n < 10 then "0" ++ toString n else toString n

/-! Gemini response parsing (QTube_content.js lines 182-215).

The source scans the raw answer with the global regex
matching a bracketed M-M-colon-S-S group, an optional dash-separated
description, and a terminating newline or end of input, accumulating
citation records and removing each matched substring from a working copy
of the answer (trimming after every removal), then collapsing blank-line
runs and trimming once more. -/

/-- One successful regex match: parsed minute and second values, the
optional description capture, whether the terminator was a newline, and
the full match length in characters. -/
structure RawMatch where
  minutes : Nat
  seconds : Nat
  desc : Option (List Char)
  newlineEnd : Bool
  len : Nat
deriving DecidableEq, Repr

/-- Continuation of the regex after the closing bracket: the optional
group needs a space-dash-space separator followed by a lazily matched
description, and the match must end in a newline or at end of input.
The argument mdig is the number of minute digits consumed. -/
def afterBracketClose (m mdig s : Nat) (rest : List Char) : Option RawMatch :=
  match rest with
  | ' ' :: '-' :: ' ' :: rest2 =>
    (match rest2.dropWhile dotChar with
     | '\n' :: _ =>
       some ⟨m, s, some (rest2.takeWhile dotChar), true,
             mdig + 9 + (rest2.takeWhile dotChar).length⟩
     | [] =>
       some ⟨m, s, some (rest2.takeWhile dotChar), false,
             mdig + 8 + (rest2.takeWhile dotChar).length⟩
     | _ => none)
  | '\n' :: _ => some ⟨m, s, none, true, mdig + 6⟩
  | [] => some ⟨m, s, none, false, mdig + 5⟩
  | _ => none

/-- Attempts the timestamp regex at the head of the character list,
mirroring the backtracking of the one-or-two-digit minute group followed
by a colon and exactly two second digits inside brackets. -/
def matchTsAt : List Char → Option RawMatch
  | '[' :: c1 :: c2 :: rest =>
    if isDig c1 && isDig c2 then
      match rest with
      | ':' :: s1 :: s2 :: ']' :: rest2 =>
        if isDig s1 && isDig s2 then
          afterBracketClose (10 * digVal c1 + digVal c2) 2
            (10 * digVal s1 + digVal s2) rest2
        else none
      | _ => none
    else if isDig c1 && c2 == ':' then
      match rest with
      | s1 :: s2 :: ']' :: rest2 =>
        if isDig s1 && isDig s2 then
          afterBracketClose (digVal c1) 1 (10 * digVal s1 + digVal s2) rest2
        else none
      | _ => none
    else none
  | _ => none

/-- Model of the global exec loop: scan left to right, record each match
with its start position, and resume after the end of the match (the
lastIndex of the JavaScript regex). Fuel bounds the recursion; the
caller supplies the string length, which always suffices because every
match is nonempty. -/
def findTsMatches : Nat → List Char → Nat → List (Nat × RawMatch)
  | 0, _, _ => []
  | _ + 1, [], _ => []
  | fuel + 1, c :: rest, pos =>
    match matchTsAt (c :: rest) with
    | some rm => (pos, rm) :: findTsMatches fuel ((c :: rest).drop rm.len) (pos + rm.len)
    | none => findTsMatches fuel rest (pos + 1)

/-- A parsed citation as pushed by the source: total seconds, the
zero-padded label, and the trimmed description (empty when absent). -/
structure Citation where
  time : Nat
  timestamp : String
  text : String
deriving DecidableEq, Repr

/-- Builds the citation record exactly as the source does: time is
minutes times sixty plus seconds, the label re-renders both parsed
numbers zero-padded to two digits, and the description is trimmed. -/
def mkCitation (rm : RawMatch) : Citation :=
  ⟨60 * rm.minutes + rm.seconds,
   pad2 rm.minutes ++ ":" ++ pad2 rm.seconds,
   match rm.desc with
   | some d => jsTrimString (String.mk d)
   | none => ""⟩

/-- The substring of the original text covered by a recorded match. -/
def sliceAt (cs : List Char) (pos len : Nat) : List Char :=
  (cs.drop pos).take len

/-- Largest index j such that the first j characters are regex
whitespace and the character at j is a newline; used by the greedy
blank-line-collapsing pattern. -/
def lastNlInRun : List Char → Option Nat
  | [] => none
  | c :: rest =>
    if jsWs c then
      match lastNlInRun rest with
      | some j => some (j + 1)
      | none => if c == '\n' then some 0 else none
    else none

/-- Model of the global replacement of newline-whitespace-newline runs
by a double newline (QTube_content.js line 213). -/
def collapseNl : Nat → List Char → List Char
  | 0, cs => cs
  | _ + 1, [] => []
  | fuel + 1, '\n' :: rest =>
    (match lastNlInRun rest with
     | some k => '\n' :: '\n' :: collapseNl fuel (rest.drop (k + 1))
     | none => '\n' :: collapseNl fuel rest)
  | fuel + 1, c :: rest => c :: collapseNl fuel rest

/-- The structured result of callGeminiApi: cleaned answer plus the
ordered citation list. -/
structure GeminiParsed where
  answer : String
  timestamps : List Citation
deriving DecidableEq, Repr

/-- The parsing stage of callGeminiApi (QTube_content.js lines 185-215):
collect all matches over the original text, build the citation list in
match order, and derive the cleaned answer by removing each full match
from a working copy (trimming after every removal), collapsing blank
runs, and trimming. -/
def callGeminiApiParse (fullAiAnswer : String) : GeminiParsed :=
  let cs := fullAiAnswer.data
  let ms := findTsMatches cs.length cs 0
  let stripped :=
    ms.foldl (fun acc pr => jsTrimChars (removeFirstOcc acc (sliceAt cs pr.1 pr.2.len))) cs
  let cleaned := jsTrimChars (collapseNl stripped.length stripped)
  ⟨String.mk cleaned, ms.map fun pr => mkCitation pr.2⟩

/-! Player Bridge (injected main-world script, QTube_content.js lines 52-147).

The injected script keeps a boolean playerReady flag and a command
queue. A polling function re-runs every 200 milliseconds; while the flag
is false it evaluates the readiness predicate over window.ytplayer and,
on success, flips the flag and drains the queue. The custom-event
handler executes a seek immediately when the flag is true and queues it
otherwise. The readiness predicate dereferences window.ytplayer.seekTo
unconditionally in its diagnostic branch, which throws a TypeError when
the player object is undefined (and the initial conjunction itself
throws when it is null, since typeof null is the string object). -/

/-- Shape of a window.ytplayer object: which methods exist, the loaded
flag, the reported player state, and whether the native seek or play
call throws for a given time. -/
structure YtPlayer where
  hasSeekTo : Bool
  hasPlayVideo : Bool
  hasGetPlayerState : Bool
  loaded : Bool
  playerState : Int
  seekToThrows : Nat → Bool
  playVideoThrows : Nat → Bool

/-- The window.ytplayer reference: undefined, null, or an object. -/
inductive YtPlayerRef where
  | absent
  | nullRef
  | obj (p : YtPlayer)

/-- A call made on the native player API. -/
inductive NativeCall where
  | seekTo (t : Nat)
  | playVideo
deriving DecidableEq, Repr

/-- The isYouTubePlayerAPIReady predicate (lines 59-87). The error value
models an uncaught TypeError: with an absent player the diagnostic
branch reads a property of undefined (line 71); with a null player the
readiness conjunction itself reads a property of null (line 63). For an
object, readiness also requires a player state other than unstarted
(minus one) or cued (five). -/
def isYouTubePlayerAPIReady : YtPlayerRef → Except Unit Bool
  | .absent => .error ()
  | .nullRef => .error ()
  | .obj p =>
    if p.hasSeekTo && p.hasPlayVideo && p.hasGetPlayerState && p.loaded then
      if p.playerState == -1 || p.playerState == 5 then .ok false else .ok true
    else .ok false

/-- processSeekCommand (lines 90-109): re-checks readiness, then calls
seekTo and playVideo inside a try block; an exception from either native
call is caught (the calls made before the throw remain in the trace)
and reported as failure. -/
def processSeekCommand (ref : YtPlayerRef) (t : Nat) :
    Except Unit (List NativeCall × Bool) :=
  match isYouTubePlayerAPIReady ref with
  | .error e => .error e
  | .ok true =>
    match ref with
    | .obj p =>
      if p.seekToThrows t then .ok ([.seekTo t], false)
      else if p.playVideoThrows t then .ok ([.seekTo t, .playVideo], false)
      else .ok ([.seekTo t, .playVideo], true)
    | _ => .ok ([], false)
  | .ok false => .ok ([], false)

/-- State owned by the injected script: the readiness flag and the FIFO
queue of pending seek times. -/
structure BridgeState where
  playerReady : Bool
  commandQueue : List Nat
deriving DecidableEq, Repr

/-- The while loop of lines 118-121: shift each queued time in FIFO
order and run processSeekCommand on it, concatenating the native calls
in execution order. -/
def drainQueue (ref : YtPlayerRef) : List Nat → Except Unit (List NativeCall)
  | [] => .ok []
  | t :: rest =>
    match processSeekCommand ref t with
    | .error e => .error e
    | .ok (calls, _) =>
      match drainQueue ref rest with
      | .error e => .error e
      | .ok more => .ok (calls ++ more)

/-- Result of one polling tick: the new state, the native calls made,
and the delay passed to setTimeout for the next tick. An error result
models the tick aborting on an uncaught exception, in which case the
setTimeout on line 128 is never reached and the loop stops. -/
structure TickResult where
  state : BridgeState
  calls : List NativeCall
  rescheduleMs : Nat
deriving DecidableEq, Repr

/-- One invocation of ensurePlayerAndProcessQueue (lines 112-129): when
the flag is already true the readiness predicate is not evaluated at
all and the tick only reschedules itself; otherwise the predicate runs
(possibly throwing), and on its first success the flag flips and the
whole queue is drained before rescheduling. -/
def ensurePlayerAndProcessQueue (ref : YtPlayerRef) (s : BridgeState) :
    Except Unit TickResult :=
  if s.playerReady then .ok ⟨s, [], 200⟩
  else
    match isYouTubePlayerAPIReady ref with
    | .error e => .error e
    | .ok true =>
      match drainQueue ref s.commandQueue with
      | .error e => .error e
      | .ok calls => .ok ⟨⟨true, []⟩, calls, 200⟩
    | .ok false => .ok ⟨s, [], 200⟩

/-- The qtube-seek-video event handler (lines 133-145): execute
immediately when the flag is true, otherwise append to the queue tail
without touching the player. -/
def onSeekEvent (ref : YtPlayerRef) (s : BridgeState) (t : Nat) :
    Except Unit (BridgeState × List NativeCall) :=
  if s.playerReady then
    match processSeekCommand ref t with
    | .error e => .error e
    | .ok (calls, _) => .ok (s, calls)
  else
    .ok (⟨s.playerReady, s.commandQueue ++ [t]⟩, [])

/-- Runs a sequence of seek events, each under its own snapshot of the
player reference, accumulating the native calls made. -/
def runSeekEvents : BridgeState → List (YtPlayerRef × Nat) →
    Except Unit (BridgeState × List NativeCall)
  | s, [] => .ok (s, [])
  | s, (ref, t) :: rest =>
    match onSeekEvent ref s t with
    | .error e => .error e
    | .ok (s1, calls) =>
      match runSeekEvents s1 rest with
      | .error e => .error e
      | .ok (s2, more) => .ok (s2, calls ++ more)

/-- The seek-then-play call pair emitted for each time of a drained
queue when no native call throws. -/
def seekCalls : List Nat → List NativeCall
  | [] => []
  | t :: rest => .seekTo t :: .playVideo :: seekCalls rest

/-! Delivery with retry (QTube_popup.js lines 63-95). -/

/-- Outcome of one chrome.tabs.sendMessage attempt: a response with no
lastError, a reported lastError after return, or a thrown exception. -/
inductive AttemptResult where
  | success (payload : Nat)
  | lastErr (msg : String)
  | thrown (msg : String)

/-- The connection-error test of line 85: the thrown message contains
the fixed no-receiving-end phrase. -/
def connErr (m : String) : Bool :=
  containsSub m "Could not establish connection"

/-- A connection-class failure in the sense of the specification: a
failure whose message is of the no-listener kind. -/
def isConnFailure : AttemptResult → Bool
  | .success _ => false
  | .lastErr m => connErr m
  | .thrown m => connErr m

/-- The error text built on exhaustion (lines 80 and 89). -/
def failMsg (retries : Nat) (m : String) : String :=
  "Failed to send message after " ++ toString (retries + 1) ++ " attempts: " ++ m

/-- Trace of one sendMessageWithRetry run: the returned or thrown
result, the number of sendMessage attempts issued, and the list of
delays awaited between consecutive attempts. -/
structure RetryRun where
  result : Except String Nat
  attempts : Nat
  waits : List Nat
deriving Repr

/-- The loop body of sendMessageWithRetry for iterations i through
retries, indexed by the number of iterations left after this one. A
response without lastError returns immediately; a reported lastError
retries whenever iterations remain, with no inspection of its message;
a thrown exception retries only when iterations remain and the message
contains the connection phrase. -/
def sendMessageWithRetryAux (env : Nat → AttemptResult) (retries delay : Nat) :
    Nat → Nat → RetryRun
  | i, 0 =>
    match env i with
    | .success p => ⟨.ok p, 1, []⟩
    | .lastErr m => ⟨.error (failMsg retries m), 1, []⟩
    | .thrown m => ⟨.error (failMsg retries m), 1, []⟩
  | i, left + 1 =>
    match env i with
    | .success p => ⟨.ok p, 1, []⟩
    | .lastErr _ =>
      let r := sendMessageWithRetryAux env retries delay (i + 1) left
      ⟨r.result, r.attempts + 1, delay :: r.waits⟩
    | .thrown m =>
      if connErr m then
        let r := sendMessageWithRetryAux env retries delay (i + 1) left
        ⟨r.result, r.attempts + 1, delay :: r.waits⟩
      else ⟨.error (failMsg retries m), 1, []⟩

/-- sendMessageWithRetry (lines 63-95): run the loop from iteration
zero with retries iterations remaining, for a given environment of
per-attempt outcomes. -/
def sendMessageWithRetry (env : Nat → AttemptResult) (retries delay : Nat) : RetryRun :=
  sendMessageWithRetryAux env retries delay 0 retries

/-! Question validation (QTube_popup.js lines 174-187). -/

/-- The placeholder text of the popup input box. -/
def defaultText : String :=
  "Ask a question about this video (under 200 characters)..."

/-- Outcome of the validation prefix of askQuestion: an abort returns
from the function with only a transient message displayed, before any
tab query or message send; proceeded means control reaches the
tab-lookup and delivery code. -/
inductive ValidationOutcome where
  | aborted (userMsg : String)
  | proceeded
deriving DecidableEq, Repr

/-- The validation prefix of askQuestion (lines 175-186): trim the
input, reject empty or placeholder text, then reject questions longer
than two hundred characters. -/
def askQuestionValidate (raw : String) : ValidationOutcome :=
  let question := jsTrimString raw
  if question = "" ∨ question = defaultText then
    .aborted "Please enter a question first!"
  else if 200 < question.length then
    .aborted "Please keep your question under 200 characters."
  else .proceeded

/-! Tab-session map and readiness handshake
(QTube_popup.js lines 1 and 103-165).

One tab is modelled. Promise statuses live in a total function from
promise identifiers; identifiers below nextId have been allocated.
Settling is one-way: resolve and reject only act on a pending promise. -/

/-- Status of a handshake promise. -/
inductive PStatus where
  | pending
  | resolved
  | rejected
deriving DecidableEq, Repr

/-- Resolves the promise with the given identifier if it is pending. -/
def resolveP (f : Nat → PStatus) (pid : Nat) : Nat → PStatus :=
  fun k => if k = pid then (match f pid with | .pending => .resolved | st => st) else f k

/-- Rejects the promise with the given identifier if it is pending. -/
def rejectP (f : Nat → PStatus) (pid : Nat) : Nat → PStatus :=
  fun k => if k = pid then (match f pid with | .pending => .rejected | st => st) else f k

/-- Session Coordinator state for one tab: the map entry (the promise
stored for the tab, if any), the next fresh promise identifier, the
status function, the registered readiness listeners (by the promise
they resolve), and the number of executeScript injections issued. -/
structure CoordState where
  entry : Option Nat
  nextId : Nat
  status : Nat → PStatus
  listeners : List Nat
  injections : Nat

/-- ensureContentScriptLoaded (lines 103-165). An existing map entry is
returned as-is: no listener, no ping, no injection. Otherwise a fresh
promise is created and stored; its executor registers a ready listener
and pings the tab. A successful ping removes the listener and resolves.
A failed ping attempts exactly one injection: on scripting success the
promise stays pending with its listener armed; on scripting failure the
listener is removed and the promise rejects (the entry stays stored
either way). The fifteen-second timeout of line 152 is scheduled in
every path and is modelled by the separate timeoutFire transition. -/
def ensureContentScriptLoaded (pingOk injectOk : Bool) (s : CoordState) :
    CoordState × Nat :=
  match s.entry with
  | some pid => (s, pid)
  | none =>
    let pid := s.nextId
    if pingOk then
      (⟨some pid, pid + 1, resolveP (fun k => if k = pid then .pending else s.status k) pid,
        s.listeners, s.injections⟩, pid)
    else if injectOk then
      (⟨some pid, pid + 1, fun k => if k = pid then .pending else s.status k,
        s.listeners ++ [pid], s.injections + 1⟩, pid)
    else
      (⟨some pid, pid + 1, rejectP (fun k => if k = pid then .pending else s.status k) pid,
        s.listeners, s.injections + 1⟩, pid)

/-- Arrival of the unsolicited contentScriptReady announcement from the
tab (lines 111-117): every registered ready listener fires, removes
itself, and resolves its promise. The map entry is not touched. -/
def contentScriptReady (s : CoordState) : CoordState :=
  ⟨s.entry, s.nextId, s.listeners.foldl resolveP s.status, [], s.injections⟩

/-- The timeout callback of lines 152-160 for a given promise: if that
promise is still the one stored for the tab, remove its listener,
reject it (a no-op when it already settled), and delete the map entry;
otherwise do nothing. -/
def timeoutFire (pid : Nat) (s : CoordState) : CoordState :=
  if s.entry = some pid then
    ⟨none, s.nextId, rejectP s.status pid, s.listeners.filter (fun q => q ≠ pid),
     s.injections⟩
  else s

/-- Events observable by the coordinator state machine. -/
inductive CoordEvent where
  | ensure (pingOk injectOk : Bool)
  | ready
  | fireTimeout (pid : Nat)

/-- One step of the coordinator state machine. -/
def coordStep : CoordEvent → CoordState → CoordState
  | .ensure a b, s => (ensureContentScriptLoaded a b s).1
  | .ready, s => contentScriptReady s
  | .fireTimeout pid, s => timeoutFire pid s

/-! The processManualTranscript listener (QTube_popup.js lines 239-275). -/

/-- The video metadata carried by a processManualTranscript request. -/
structure VideoData where
  videoTitle : String
  videoDescription : String
  videoTranscript : String

/-- The grounding prompt composed on lines 255-261. -/
def composeTranscriptPrompt (vd : VideoData) (question : String) : String :=
  "You are an AI assistant designed to answer questions about YouTube videos.\n" ++
  "Video Title: \"" ++ vd.videoTitle ++ "\"\n" ++
  "Video Description: \"" ++ vd.videoDescription ++ "\"\n" ++
  "Video Transcript:\n\n" ++ vd.videoTranscript ++ "\n\n\n" ++
  "Based *only* on the provided video transcript and description, answer the following question. If the information is not present in the transcript or description, state that you cannot answer based on the provided text.\n" ++
  "User Question: \"" ++ question ++ "\"\n" ++
  "AI Answer:"

/-- Shapes a reply object to a processManualTranscript request can
take. The failure and nestedSuccess shapes are the ones the source
builds: the success reply of line 267 stores the whole structured
gateway result under its answer field and has no top-level timestamps
field. The flatSuccess shape is modelled from the spec: a reply with
success, a string answer, and a top-level timestamps list, for
comparison with what the source produces. -/
inductive TranscriptReplyShape where
  | failure (error : String)
  | nestedSuccess (result : GeminiParsed)
  | flatSuccess (answer : String) (timestamps : List Citation)
deriving DecidableEq, Repr

/-- The processManualTranscript branch of the popup message listener
(lines 240-274): a request not from the active tab is answered with a
fixed error payload and the handler returns without the keep-open
value; an active-tab request composes the grounding prompt, invokes the
gateway, and answers with the nested success shape or an error payload,
returning true to keep the channel open. The boolean component is the
value returned by the listener body. -/
def processManualTranscriptListener (fromActiveTab : Bool) (vd : VideoData)
    (question : String) (gateway : String → Except String GeminiParsed) :
    TranscriptReplyShape × Bool :=
  if fromActiveTab then
    match gateway (composeTranscriptPrompt vd question) with
    | .ok r => (.nestedSuccess r, true)
    | .error m => (.failure m, true)
  else (.failure "Invalid tab context for AI processing.", false)

/-! Theorems -/

/-- Dispatching any sequence of seek events against a not-ready bridge
only queues: no native call is made and the queue accumulates the times
in submission order. -/
theorem runSeekEvents_notReady (evs : List (YtPlayerRef × Nat)) :
    ∀ q : List Nat,
      runSeekEvents ⟨false, q⟩ evs = .ok (⟨false, q ++ evs.map Prod.snd⟩, []) := by
  induction evs with
  | nil => intro q; simp [runSeekEvents]
  | cons ev rest ih =>
    intro q
    obtain ⟨ref, t⟩ := ev
    simp [runSeekEvents, onSeekEvent, ih (q ++ [t])]

/-- Draining a queue against a ready, non-throwing player executes a
seek-then-play pair for every queued time, in FIFO order. -/
theorem drainQueue_ready (p : YtPlayer)
    (hready : isYouTubePlayerAPIReady (.obj p) = .ok true)
    (hseek : ∀ t, p.seekToThrows t = false)
    (hplay : ∀ t, p.playVideoThrows t = false) :
    ∀ ts : List Nat, drainQueue (.obj p) ts = .ok (seekCalls ts) := by
  intro ts
  induction ts with
  | nil => rfl
  | cons t rest ih =>
    simp [drainQueue, processSeekCommand, hready, hseek t, hplay t, ih, seekCalls]

/-- C1: for the Player Bridge, a seek event received while the
readiness gate is false is appended to the queue with no native call;
a sequence of seek events dispatched before readiness produces no
seekTo or playVideo invocation and queues the times in submission
order; the tick on which the gate turns true drains the entire queue
exactly once, invoking seekTo then playVideo per time in FIFO order;
and every later tick makes no further native call, so in particular
three seek events dispatched before readiness yield exactly three
seek-plus-play pairs in original order, none before readiness. -/
theorem player_bridge_fifo_drain (evs : List (YtPlayerRef × Nat)) (p : YtPlayer)
    (hready : isYouTubePlayerAPIReady (.obj p) = .ok true)
    (hseek : ∀ t, p.seekToThrows t = false)
    (hplay : ∀ t, p.playVideoThrows t = false) :
    (∀ (ref : YtPlayerRef) (s : BridgeState) (t : Nat), s.playerReady = false →
       onSeekEvent ref s t = .ok (⟨false, s.commandQueue ++ [t]⟩, [])) ∧
    runSeekEvents ⟨false, []⟩ evs = .ok (⟨false, evs.map Prod.snd⟩, []) ∧
    ensurePlayerAndProcessQueue (.obj p) ⟨false, evs.map Prod.snd⟩ =
      .ok ⟨⟨true, []⟩, seekCalls (evs.map Prod.snd), 200⟩ ∧
    (∀ ref2 : YtPlayerRef,
       ensurePlayerAndProcessQueue ref2 ⟨true, []⟩ = .ok ⟨⟨true, []⟩, [], 200⟩) := by
  refine ⟨?_, ?_, ?_, fun ref2 => rfl⟩
  · intro ref s t hnr
    simp [onSeekEvent, hnr]
  · simpa using runSeekEvents_notReady evs []
  · simp [ensurePlayerAndProcessQueue, hready, drainQueue_ready p hready hseek hplay]

/-- Witness for C1: three seeks queued while not ready, then one ready
tick produces exactly the three seek-plus-play pairs in order. -/
theorem player_bridge_fifo_drain_witness :
    runSeekEvents ⟨false, []⟩ [(.absent, 10), (.absent, 20), (.absent, 30)] =
      .ok (⟨false, [10, 20, 30]⟩, []) ∧
    ensurePlayerAndProcessQueue
        (.obj ⟨true, true, true, true, 1, fun _ => false, fun _ => false⟩)
        ⟨false, [10, 20, 30]⟩ =
      .ok ⟨⟨true, []⟩,
           [.seekTo 10, .playVideo, .seekTo 20, .playVideo, .seekTo 30, .playVideo],
           200⟩ := by
  have h := player_bridge_fifo_drain [(.absent, 10), (.absent, 20), (.absent, 30)]
    ⟨true, true, true, true, 1, fun _ => false, fun _ => false⟩
    rfl (fun _ => rfl) (fun _ => rfl)
  exact ⟨h.2.1, h.2.2.1⟩

/-- C2: the claim fails on the code. First conjunct: with the native
player object absent, a polling tick aborts with an uncaught TypeError
before reaching the setTimeout that would reschedule it, so the loop
crashes and the queued command is never drained. Second conjunct: once
the flag is true a tick returns without evaluating the readiness
predicate at all (it succeeds even for the absent reference, whose
predicate throws), so the predicate is not re-evaluated indefinitely. -/
theorem player_bridge_poll_crash :
    ensurePlayerAndProcessQueue .absent ⟨false, [42]⟩ = .error () ∧
    (∀ (ref : YtPlayerRef) (q : List Nat),
       ensurePlayerAndProcessQueue ref ⟨true, q⟩ = .ok ⟨⟨true, q⟩, [], 200⟩) :=
  ⟨rfl, fun _ _ => rfl⟩

/-- C3: evaluating the parser at the exact input of the claim. The
citation sequence is as claimed, and the cleaned answer contains the
expected free text, but the final bracketed marker survives in the
cleaned answer: the per-iteration trim removes the trailing newline
that the second full match string still carries, so its removal finds
no occurrence. -/
theorem callGeminiApi_parse_example :
    callGeminiApiParse "[01:23] - Intro\nSome text\n[00:05]\n" =
      ⟨"Some text\n[00:05]", [⟨83, "01:23", "Intro"⟩, ⟨5, "00:05", ""⟩]⟩ ∧
    containsSub "Some text\n[00:05]" "Some text" = true ∧
    containsSub "Some text\n[00:05]" "[00:05]" = true := by
  exact ⟨by decide, by decide, by decide⟩

/-- A run of the retry loop that meets a successful attempt after a
block of connection-class failures returns the success payload, one
attempt per failure plus the final one, with the configured delay
awaited between consecutive attempts. -/
theorem retryAux_succeeds (env : Nat → AttemptResult) (retries delay p : Nat) :
    ∀ (N i left : Nat), N ≤ left →
      (∀ j, j < N → isConnFailure (env (i + j)) = true) →
      env (i + N) = .success p →
      sendMessageWithRetryAux env retries delay i left =
        ⟨.ok p, N + 1, List.replicate N delay⟩ := by
  intro N
  induction N with
  | zero =>
    intro i left _ _ hsucc
    rw [Nat.add_zero] at hsucc
    cases left with
    | zero => simp [sendMessageWithRetryAux, hsucc]
    | succ l => simp [sendMessageWithRetryAux, hsucc]
  | succ n ih =>
    intro i left hle hconn hsucc
    cases left with
    | zero => exact absurd hle (by omega)
    | succ left' =>
      have h0 : isConnFailure (env i) = true := by
        simpa using hconn 0 (by omega)
      have hshift : ∀ j, j < n → isConnFailure (env (i + 1 + j)) = true := by
        intro j hj
        have heq : i + 1 + j = i + (j + 1) := by omega
        rw [heq]
        exact hconn (j + 1) (by omega)
      have hsucc1 : env (i + 1 + n) = .success p := by
        have heq : i + 1 + n = i + (n + 1) := by omega
        rw [heq]; exact hsucc
      have hrec := ih (i + 1) left' (by omega) hshift hsucc1
      cases henv : env i with
      | success q => rw [henv] at h0; simp [isConnFailure] at h0
      | lastErr m =>
        simp [sendMessageWithRetryAux, henv, hrec, List.replicate_succ]
      | thrown m =>
        have hc : connErr m = true := by
          rw [henv] at h0; simpa [isConnFailure] using h0
        simp [sendMessageWithRetryAux, henv, hc, hrec, List.replicate_succ]

/-- A run of the retry loop in which every remaining attempt fails with
a connection-class error exhausts all attempts and produces the
descriptive failure message. -/
theorem retryAux_exhausts (env : Nat → AttemptResult) (retries delay : Nat) :
    ∀ (left i : Nat),
      (∀ j, j ≤ left → isConnFailure (env (i + j)) = true) →
      ∃ m, sendMessageWithRetryAux env retries delay i left =
        ⟨.error (failMsg retries m), left + 1, List.replicate left delay⟩ := by
  intro left
  induction left with
  | zero =>
    intro i hconn
    have h0 : isConnFailure (env i) = true := by
      simpa using hconn 0 (by omega)
    cases henv : env i with
    | success q => rw [henv] at h0; simp [isConnFailure] at h0
    | lastErr m => exact ⟨m, by simp [sendMessageWithRetryAux, henv]⟩
    | thrown m => exact ⟨m, by simp [sendMessageWithRetryAux, henv]⟩
  | succ left' ih =>
    intro i hconn
    have h0 : isConnFailure (env i) = true := by
      simpa using hconn 0 (by omega)
    have hshift : ∀ j, j ≤ left' → isConnFailure (env (i + 1 + j)) = true := by
      intro j hj
      have heq : i + 1 + j = i + (j + 1) := by omega
      rw [heq]
      exact hconn (j + 1) (by omega)
    obtain ⟨m, hrec⟩ := ih (i + 1) hshift
    cases henv : env i with
    | success q => rw [henv] at h0; simp [isConnFailure] at h0
    | lastErr m0 =>
      exact ⟨m, by simp [sendMessageWithRetryAux, henv, hrec, List.replicate_succ]⟩
    | thrown m0 =>
      have hc : connErr m0 = true := by
        rw [henv] at h0; simpa [isConnFailure] using h0
      exact ⟨m, by simp [sendMessageWithRetryAux, henv, hc, hrec, List.replicate_succ]⟩

/-- C4: given N connection-class failures followed by a success, with N
at most the configured retry count, sendMessageWithRetry issues exactly
N plus one attempts, awaits the configured delay between consecutive
attempts, and returns the payload of the successful attempt; when all
retries plus one attempts fail with connection-class errors it fails
with the descriptive exhaustion message. -/
theorem sendMessageWithRetry_spec :
    (∀ (env : Nat → AttemptResult) (retries delay N p : Nat), N ≤ retries →
       (∀ j, j < N → isConnFailure (env j) = true) →
       env N = .success p →
       sendMessageWithRetry env retries delay =
         ⟨.ok p, N + 1, List.replicate N delay⟩) ∧
    (∀ (env : Nat → AttemptResult) (retries delay : Nat),
       (∀ j, j ≤ retries → isConnFailure (env j) = true) →
       ∃ m, sendMessageWithRetry env retries delay =
         ⟨.error (failMsg retries m), retries + 1, List.replicate retries delay⟩) := by
  constructor
  · intro env retries delay N p hle hconn hsucc
    exact retryAux_succeeds env retries delay p N 0 retries hle
      (fun j hj => by simpa using hconn j hj) (by simpa using hsucc)
  · intro env retries delay hconn
    exact retryAux_exhausts env retries delay retries 0
      (fun j hj => by simpa using hconn j hj)

/-- Witness for C4: two connection failures then a success give three
attempts with two waits; a run of nothing but connection failures with
one configured retry exhausts after two attempts. -/
theorem sendMessageWithRetry_spec_witness :
    sendMessageWithRetry
        (fun i => if i < 2 then
            .thrown "Error: Could not establish connection. Receiving end does not exist."
          else .success 7) 3 500 =
      ⟨.ok 7, 3, [500, 500]⟩ ∧
    (∃ m, sendMessageWithRetry (fun _ => .lastErr "Could not establish connection.") 1 250 =
      ⟨.error (failMsg 1 m), 2, [250]⟩) := by
  constructor
  · exact sendMessageWithRetry_spec.1
      (fun i => if i < 2 then
          .thrown "Error: Could not establish connection. Receiving end does not exist."
        else .success 7) 3 500 2 7 (by omega)
      (fun j hj => by interval_cases j <;> decide) rfl
  · exact sendMessageWithRetry_spec.2
      (fun _ => .lastErr "Could not establish connection.") 1 250
      (fun _ _ => rfl)

/-- C5 counterexample: an attempt that fails with a reported lastError
whose message is not a connection-class message is nevertheless
retried: the run issues a second attempt after a wait, contradicting
the claim that both failure paths retry only on no-listener style
connection errors. -/
theorem retry_classification_counterexample :
    isConnFailure
        (AttemptResult.lastErr "The message port closed before a response was received.") =
      false ∧
    sendMessageWithRetry
        (fun i => if i = 0 then
            .lastErr "The message port closed before a response was received."
          else .success 7) 3 500 =
      ⟨.ok 7, 2, [500]⟩ :=
  ⟨by decide, rfl⟩

/-- C5 (amended): the two failure paths classify differently. A
reported lastError is retried whenever attempts remain, with no
inspection of its message; a thrown exception whose message lacks the
connection phrase is never retried, even with attempts remaining. -/
theorem retry_classification_asymmetric :
    (∀ (env : Nat → AttemptResult) (retries delay : Nat) (m : String),
       env 0 = .lastErr m →
       sendMessageWithRetry env (retries + 1) delay =
         ⟨(sendMessageWithRetryAux env (retries + 1) delay 1 retries).result,
          (sendMessageWithRetryAux env (retries + 1) delay 1 retries).attempts + 1,
          delay :: (sendMessageWithRetryAux env (retries + 1) delay 1 retries).waits⟩) ∧
    (∀ (env : Nat → AttemptResult) (retries delay : Nat) (m : String),
       env 0 = .thrown m → connErr m = false →
       sendMessageWithRetry env retries delay =
         ⟨.error (failMsg retries m), 1, []⟩) := by
  constructor
  · intro env retries delay m h0
    simp [sendMessageWithRetry, sendMessageWithRetryAux, h0]
  · intro env retries delay m h0 hc
    cases retries with
    | zero => simp [sendMessageWithRetry, sendMessageWithRetryAux, h0]
    | succ r => simp [sendMessageWithRetry, sendMessageWithRetryAux, h0, hc]

/-- Witness for C5 (amended): a non-connection lastError is retried; a
non-connection thrown error is not. -/
theorem retry_classification_asymmetric_witness :
    sendMessageWithRetry (fun _ => .lastErr "quota exceeded") 1 9 =
      ⟨.error (failMsg 1 "quota exceeded"), 2, [9]⟩ ∧
    sendMessageWithRetry (fun _ => .thrown "quota exceeded") 5 9 =
      ⟨.error (failMsg 5 "quota exceeded"), 1, []⟩ := by
  constructor
  · exact retry_classification_asymmetric.1 (fun _ => .lastErr "quota exceeded") 0 9
      "quota exceeded" rfl
  · exact retry_classification_asymmetric.2 (fun _ => .thrown "quota exceeded") 5 9
      "quota exceeded" rfl (by decide)

/-- A string has positive length exactly when it is not the empty
string. -/
theorem string_one_le_length_iff (s : String) : 1 ≤ s.length ↔ s ≠ "" := by
  constructor
  · intro h he
    rw [he] at h
    exact absurd h (by decide)
  · intro h
    by_contra hlt
    apply h
    have hdata : s.data = [] := by
      have hz : s.data.length = 0 := by
        have hzero : s.length = 0 := by omega
        exact hzero
      exact List.length_eq_zero.mp hz
    cases s with
    | mk d =>
      cases hdata
      rfl

/-- C7: the validation prefix of askQuestion lets a trimmed question
through exactly when its length is between one and two hundred and it
differs from the placeholder; empty or placeholder input aborts with
the first transient message, over-long input aborts with the second,
and an abort returns from askQuestion before any tab query or message
send. -/
theorem askQuestion_validation (raw : String) :
    (askQuestionValidate raw = .proceeded ↔
      (1 ≤ (jsTrimString raw).length ∧ (jsTrimString raw).length ≤ 200 ∧
       jsTrimString raw ≠ defaultText)) ∧
    ((jsTrimString raw = "" ∨ jsTrimString raw = defaultText) →
      askQuestionValidate raw = .aborted "Please enter a question first!") ∧
    (jsTrimString raw ≠ "" → jsTrimString raw ≠ defaultText →
      200 < (jsTrimString raw).length →
      askQuestionValidate raw =
        .aborted "Please keep your question under 200 characters.") := by
  refine ⟨?_, ?_, ?_⟩
  · by_cases h1 : jsTrimString raw = "" ∨ jsTrimString raw = defaultText
    · simp only [askQuestionValidate, if_pos h1]
      constructor
      · intro h; exact absurd h (by simp)
      · rintro ⟨hlen, _, hne⟩
        rcases h1 with h | h
        · rw [h] at hlen; simp [String.length] at hlen
        · exact absurd h hne
    · by_cases h2 : 200 < (jsTrimString raw).length
      · simp only [askQuestionValidate, if_neg h1, if_pos h2]
        constructor
        · intro h; exact absurd h (by simp)
        · rintro ⟨_, hle, _⟩; omega
      · simp only [askQuestionValidate, if_neg h1, if_neg h2]
        push_neg at h1
        constructor
        · intro _
          exact ⟨(string_one_le_length_iff _).mpr h1.1, by omega, h1.2⟩
        · intro _; trivial
  · intro h1
    simp only [askQuestionValidate, if_pos h1]
  · intro hne hnd hlen
    have h1 : ¬(jsTrimString raw = "" ∨ jsTrimString raw = defaultText) := by
      rintro (h | h)
      · exact hne h
      · exact hnd h
    simp only [askQuestionValidate, if_neg h1, if_pos hlen]

set_option maxRecDepth 4000 in
/-- Witness for C7: whitespace-only input aborts with the first
message; a two-hundred-and-one character input aborts with the length
message. -/
theorem askQuestion_validation_witness :
    askQuestionValidate "   " = .aborted "Please enter a question first!" ∧
    askQuestionValidate (String.mk (List.replicate 201 'a')) =
      .aborted "Please keep your question under 200 characters." := by
  constructor
  · exact (askQuestion_validation "   ").2.1 (Or.inl (by decide))
  · exact (askQuestion_validation (String.mk (List.replicate 201 'a'))).2.2
      (by decide) (by decide) (by decide)

/-- C8 counterexample: for an active-tab request whose gateway call
succeeds, the listener replies with the gateway result nested whole
under the answer field; the reply is not the claimed flat shape with a
top-level timestamps field, for any answer string and timestamp list. -/
theorem transcript_reply_shape_counterexample :
    (processManualTranscriptListener true ⟨"T", "D", "Tr"⟩ "Q"
        (fun _ => .ok ⟨"A", [⟨83, "01:23", "Intro"⟩]⟩)).1 =
      .nestedSuccess ⟨"A", [⟨83, "01:23", "Intro"⟩]⟩ ∧
    (∀ (a : String) (ts : List Citation),
       (processManualTranscriptListener true ⟨"T", "D", "Tr"⟩ "Q"
          (fun _ => .ok ⟨"A", [⟨83, "01:23", "Intro"⟩]⟩)).1 ≠
         .flatSuccess a ts) := by
  refine ⟨rfl, ?_⟩
  intro a ts
  simp [processManualTranscriptListener]

/-- C8 (amended): the listener rejects a request not from the active
tab with the fixed error payload and does not return the keep-open
value; for an active-tab request it composes the grounding prompt from
the supplied video data and question, invokes the gateway, and replies
with success true and the whole structured gateway result nested under
the answer field (no top-level timestamps field) or with success false
and the error message, returning true to keep the channel open. -/
theorem processManualTranscript_listener_spec
    (fromActiveTab : Bool) (vd : VideoData) (question : String)
    (gateway : String → Except String GeminiParsed) :
    (fromActiveTab = false →
       processManualTranscriptListener fromActiveTab vd question gateway =
         (.failure "Invalid tab context for AI processing.", false)) ∧
    (∀ r, fromActiveTab = true →
       gateway (composeTranscriptPrompt vd question) = .ok r →
       processManualTranscriptListener fromActiveTab vd question gateway =
         (.nestedSuccess r, true)) ∧
    (∀ m, fromActiveTab = true →
       gateway (composeTranscriptPrompt vd question) = .error m →
       processManualTranscriptListener fromActiveTab vd question gateway =
         (.failure m, true)) := by
  refine ⟨?_, ?_, ?_⟩
  · intro h; simp [processManualTranscriptListener, h]
  · intro r h hg; simp [processManualTranscriptListener, h, hg]
  · intro m h hg; simp [processManualTranscriptListener, h, hg]

/-- Witness for C8 (amended): a non-active-tab request gets the fixed
error payload; an active-tab request with a succeeding gateway gets the
nested success reply. -/
theorem processManualTranscript_listener_spec_witness :
    processManualTranscriptListener false ⟨"T", "D", "Tr"⟩ "Q"
        (fun _ => .ok ⟨"A", []⟩) =
      (.failure "Invalid tab context for AI processing.", false) ∧
    processManualTranscriptListener true ⟨"T", "D", "Tr"⟩ "Q"
        (fun _ => .ok ⟨"A", []⟩) =
      (.nestedSuccess ⟨"A", []⟩, true) := by
  constructor
  · exact (processManualTranscript_listener_spec false ⟨"T", "D", "Tr"⟩ "Q"
      (fun _ => .ok ⟨"A", []⟩)).1 rfl
  · exact (processManualTranscript_listener_spec true ⟨"T", "D", "Tr"⟩ "Q"
      (fun _ => .ok ⟨"A", []⟩)).2.1 ⟨"A", []⟩ rfl rfl

/-- Resolving some promise never changes the status of a promise that
has already settled. -/
theorem resolveP_stable (f : Nat → PStatus) (q pid : Nat) (h : f pid ≠ .pending) :
    resolveP f q pid = f pid := by
  unfold resolveP
  by_cases hq : pid = q
  · subst hq
    simp only [if_pos rfl]
    cases hf : f pid with
    | pending => exact absurd hf h
    | resolved => rfl
    | rejected => rfl
  · simp [hq]

/-- Rejecting some promise never changes the status of a promise that
has already settled. -/
theorem rejectP_stable (f : Nat → PStatus) (q pid : Nat) (h : f pid ≠ .pending) :
    rejectP f q pid = f pid := by
  unfold rejectP
  by_cases hq : pid = q
  · subst hq
    simp only [if_pos rfl]
    cases hf : f pid with
    | pending => exact absurd hf h
    | resolved => rfl
    | rejected => rfl
  · simp [hq]

/-- Firing any collection of ready listeners never changes the status
of a promise that has already settled. -/
theorem foldl_resolveP_stable (pid : Nat) :
    ∀ (L : List Nat) (f : Nat → PStatus), f pid ≠ .pending →
      (L.foldl resolveP f) pid = f pid := by
  intro L
  induction L with
  | nil => intro f _; rfl
  | cons q rest ih =>
    intro f h
    have hstep : resolveP f q pid = f pid := resolveP_stable f q pid h
    have := ih (resolveP f q) (by rw [hstep]; exact h)
    rw [List.foldl_cons, this, hstep]

/-- C6: a call of ensureContentScriptLoaded for a tab with a stored
entry returns that entry unchanged, registering no listener and issuing
no injection; a call for a tab without an entry whose ping fails issues
exactly one injection and stores one pending promise, which a later
ready announcement resolves and a later timeout rejects (neither adding
an injection); and no step of the coordinator ever changes the status
of a promise that has already settled, so each session settles at most
once. -/
theorem ensureContentScriptLoaded_session_invariants :
    (∀ (a b : Bool) (s : CoordState) (pid : Nat), s.entry = some pid →
       ensureContentScriptLoaded a b s = (s, pid)) ∧
    (∀ s : CoordState, s.entry = none → s.listeners = [] →
       ((ensureContentScriptLoaded false true s).1.injections = s.injections + 1 ∧
        (ensureContentScriptLoaded false true s).1.entry = some s.nextId ∧
        (ensureContentScriptLoaded false true s).1.status s.nextId = .pending ∧
        (contentScriptReady (ensureContentScriptLoaded false true s).1).status s.nextId =
          .resolved ∧
        (contentScriptReady (ensureContentScriptLoaded false true s).1).injections =
          s.injections + 1 ∧
        (timeoutFire s.nextId (ensureContentScriptLoaded false true s).1).status s.nextId =
          .rejected ∧
        (timeoutFire s.nextId (ensureContentScriptLoaded false true s).1).injections =
          s.injections + 1)) ∧
    (∀ (e : CoordEvent) (s : CoordState) (pid : Nat),
       s.status pid ≠ .pending → pid < s.nextId →
       (coordStep e s).status pid = s.status pid) := by
  refine ⟨?_, ?_, ?_⟩
  · intro a b s pid h
    simp [ensureContentScriptLoaded, h]
  · intro s hentry hlist
    simp [ensureContentScriptLoaded, hentry, contentScriptReady, timeoutFire, hlist,
      resolveP, rejectP]
  · intro e s pid hset hlt
    cases e with
    | ensure a b =>
      cases hentry : s.entry with
      | some q => simp [coordStep, ensureContentScriptLoaded, hentry]
      | none =>
        have hne : pid ≠ s.nextId := by omega
        cases a <;> cases b <;>
          simp [coordStep, ensureContentScriptLoaded, hentry, resolveP, rejectP, hne]
    | ready =>
      exact foldl_resolveP_stable pid s.listeners s.status hset
    | fireTimeout q =>
      simp only [coordStep, timeoutFire]
      by_cases hentry : s.entry = some q
      · simp only [if_pos hentry]
        exact rejectP_stable s.status q pid hset
      · simp [hentry]

/-- Witness for C6: a pending entry is reused unchanged; a fresh
session injects once and then resolves on ready or rejects on timeout. -/
theorem ensureContentScriptLoaded_session_invariants_witness :
    ensureContentScriptLoaded true false ⟨some 5, 6, fun _ => .pending, [5], 1⟩ =
      (⟨some 5, 6, fun _ => .pending, [5], 1⟩, 5) ∧
    ((ensureContentScriptLoaded false true ⟨none, 0, fun _ => .rejected, [], 0⟩).1.injections
        = 0 + 1 ∧
     (ensureContentScriptLoaded false true ⟨none, 0, fun _ => .rejected, [], 0⟩).1.entry
        = some 0 ∧
     (ensureContentScriptLoaded false true ⟨none, 0, fun _ => .rejected, [], 0⟩).1.status 0
        = .pending ∧
     (contentScriptReady
        (ensureContentScriptLoaded false true ⟨none, 0, fun _ => .rejected, [], 0⟩).1).status 0
        = .resolved ∧
     (contentScriptReady
        (ensureContentScriptLoaded false true ⟨none, 0, fun _ => .rejected, [], 0⟩).1).injections
        = 0 + 1 ∧
     (timeoutFire 0
        (ensureContentScriptLoaded false true ⟨none, 0, fun _ => .rejected, [], 0⟩).1).status 0
        = .rejected ∧
     (timeoutFire 0
        (ensureContentScriptLoaded false true ⟨none, 0, fun _ => .rejected, [], 0⟩).1).injections
        = 0 + 1) := by
  exact ⟨ensureContentScriptLoaded_session_invariants.1 true false
           ⟨some 5, 6, fun _ => .pending, [5], 1⟩ 5 rfl,
         ensureContentScriptLoaded_session_invariants.2.1
           ⟨none, 0, fun _ => .rejected, [], 0⟩ rfl rfl⟩

/-- C10: the timeout callback deletes the stored map entry whenever the
fired promise is still the stored one, including when that promise has
already resolved (whose status it leaves resolved); the ready
announcement never touches the entry; a successful ping stores a
resolved promise without removing the entry; and a timeout for a
promise that is no longer the stored one does nothing. -/
theorem tabSession_timeout_deletes_entry :
    (∀ (s : CoordState) (pid : Nat), s.entry = some pid →
       (timeoutFire pid s).entry = none) ∧
    (∀ (s : CoordState) (pid : Nat), s.entry = some pid → s.status pid = .resolved →
       (timeoutFire pid s).entry = none ∧ (timeoutFire pid s).status pid = .resolved) ∧
    (∀ s : CoordState, (contentScriptReady s).entry = s.entry) ∧
    (∀ s : CoordState, s.entry = none →
       (ensureContentScriptLoaded true true s).1.entry = some s.nextId ∧
       (ensureContentScriptLoaded true true s).1.status s.nextId = .resolved) ∧
    (∀ (s : CoordState) (pid q : Nat), s.entry = some q → q ≠ pid →
       timeoutFire pid s = s) := by
  refine ⟨?_, ?_, ?_, ?_, ?_⟩
  · intro s pid h
    simp [timeoutFire, h]
  · intro s pid h hres
    have hstat : rejectP s.status pid pid = s.status pid :=
      rejectP_stable s.status pid pid (by rw [hres]; simp)
    exact ⟨by simp [timeoutFire, h], by simp [timeoutFire, h, hstat, hres]⟩
  · intro s; rfl
  · intro s h
    simp [ensureContentScriptLoaded, h, resolveP]
  · intro s pid q h hne
    have : s.entry ≠ some pid := by rw [h]; simp [hne]
    simp [timeoutFire, this]

/-- Witness for C10: firing the timeout on a stored, already resolved
promise removes the entry and keeps the promise resolved; ready
preserves the entry; a successful ping leaves a resolved stored entry;
a stale timeout is a no-op. -/
theorem tabSession_timeout_deletes_entry_witness :
    (timeoutFire 3 ⟨some 3, 4, fun _ => .resolved, [], 2⟩).entry = none ∧
    (timeoutFire 3 ⟨some 3, 4, fun _ => .resolved, [], 2⟩).status 3 = .resolved ∧
    (contentScriptReady ⟨some 3, 4, fun _ => .resolved, [], 2⟩).entry = some 3 ∧
    (ensureContentScriptLoaded true true ⟨none, 0, fun _ => .rejected, [], 0⟩).1.entry
      = some 0 ∧
    (ensureContentScriptLoaded true true ⟨none, 0, fun _ => .rejected, [], 0⟩).1.status 0
      = .resolved ∧
    timeoutFire 7 ⟨some 3, 4, fun _ => .resolved, [], 2⟩ =
      ⟨some 3, 4, fun _ => .resolved, [], 2⟩ := by
  have h2 := tabSession_timeout_deletes_entry.2.1
    ⟨some 3, 4, fun _ => .resolved, [], 2⟩ 3 rfl rfl
  have h3 := tabSession_timeout_deletes_entry.2.2.1
    ⟨some 3, 4, fun _ => .resolved, [], 2⟩
  have h4 := tabSession_timeout_deletes_entry.2.2.2.1
    ⟨none, 0, fun _ => .rejected, [], 0⟩ rfl
  have h5 := tabSession_timeout_deletes_entry.2.2.2.2
    ⟨some 3, 4, fun _ => .resolved, [], 2⟩ 7 3 rfl (by decide)
  exact ⟨h2.1, h2.2, h3, h4.1, h4.2, h5⟩

/-- The value of an ASCII digit character is at most nine. -/
theorem digVal_le (c : Char) (h : isDig c = true) : digVal c ≤ 9 := by
  unfold isDig at h
  unfold digVal
  simp only [Bool.and_eq_true, decide_eq_true_eq] at h
  omega

/-- A successful tail of the regex yields the minute and second values
it was given and a positive match length. -/
theorem afterBracketClose_spec (m mdig s : Nat) (rest : List Char) (rm : RawMatch)
    (h : afterBracketClose m mdig s rest = some rm) :
    rm.minutes = m ∧ rm.seconds = s ∧ 1 ≤ rm.len := by
  unfold afterBracketClose at h
  split at h
  · split at h
    · cases h; refine ⟨rfl, rfl, by simp; omega⟩
    · cases h; refine ⟨rfl, rfl, by simp; omega⟩
    · exact absurd h (by simp)
  · cases h; exact ⟨rfl, rfl, by simp⟩
  · cases h; exact ⟨rfl, rfl, by simp⟩
  · exact absurd h (by simp)

/-- A successful regex match has minute and second values of at most
ninety-nine and a positive length. -/
theorem matchTsAt_bounds (cs : List Char) (rm : RawMatch)
    (h : matchTsAt cs = some rm) :
    rm.minutes ≤ 99 ∧ rm.seconds ≤ 99 ∧ 1 ≤ rm.len := by
  unfold matchTsAt at h
  split at h
  · rename_i c1 c2 rest
    split at h
    · rename_i h12
      simp only [Bool.and_eq_true] at h12
      split at h
      · rename_i s1 s2 rest2
        split at h
        · rename_i h34
          simp only [Bool.and_eq_true] at h34
          obtain ⟨hm, hs, hl⟩ := afterBracketClose_spec _ _ _ _ _ h
          have b1 := digVal_le c1 h12.1
          have b2 := digVal_le c2 h12.2
          have b3 := digVal_le s1 h34.1
          have b4 := digVal_le s2 h34.2
          exact ⟨by omega, by omega, hl⟩
        · exact absurd h (by simp)
      · exact absurd h (by simp)
    · split at h
      · rename_i h1c
        simp only [Bool.and_eq_true] at h1c
        split at h
        · rename_i s1 s2 rest2
          split at h
          · rename_i h34
            simp only [Bool.and_eq_true] at h34
            obtain ⟨hm, hs, hl⟩ := afterBracketClose_spec _ _ _ _ _ h
            have b1 := digVal_le c1 h1c.1
            have b3 := digVal_le s1 h34.1
            have b4 := digVal_le s2 h34.2
            exact ⟨by omega, by omega, hl⟩
          · exact absurd h (by simp)
        · exact absurd h (by simp)
      · exact absurd h (by simp)
  · exact absurd h (by simp)

/-- Every recorded match lies at or after the scan position and has
in-range minute and second values. -/
theorem findTsMatches_mem :
    ∀ (fuel : Nat) (cs : List Char) (pos : Nat) (q : Nat × RawMatch),
      q ∈ findTsMatches fuel cs pos →
      pos ≤ q.1 ∧ q.2.minutes ≤ 99 ∧ q.2.seconds ≤ 99 := by
  intro fuel
  induction fuel with
  | zero => intro cs pos q hq; simp [findTsMatches] at hq
  | succ fuel ih =>
    intro cs pos q hq
    cases cs with
    | nil => simp [findTsMatches] at hq
    | cons c rest =>
      simp only [findTsMatches] at hq
      cases hm : matchTsAt (c :: rest) with
      | none =>
        rw [hm] at hq
        have := ih rest (pos + 1) q hq
        exact ⟨by omega, this.2⟩
      | some rm =>
        rw [hm] at hq
        rcases List.mem_cons.mp hq with heq | htail
        · subst heq
          have hb := matchTsAt_bounds (c :: rest) rm hm
          exact ⟨le_refl _, hb.1, hb.2.1⟩
        · have := ih ((c :: rest).drop rm.len) (pos + rm.len) q htail
          exact ⟨by omega, this.2⟩

/-- The recorded matches carry strictly increasing start positions:
first-occurrence order in the raw text. -/
theorem findTsMatches_pairwise :
    ∀ (fuel : Nat) (cs : List Char) (pos : Nat),
      List.Pairwise (fun a b : Nat × RawMatch => a.1 < b.1)
        (findTsMatches fuel cs pos) := by
  intro fuel
  induction fuel with
  | zero => intro cs pos; simp [findTsMatches]
  | succ fuel ih =>
    intro cs pos
    cases cs with
    | nil => simp [findTsMatches]
    | cons c rest =>
      simp only [findTsMatches]
      cases hm : matchTsAt (c :: rest) with
      | none => exact ih rest (pos + 1)
      | some rm =>
        refine List.pairwise_cons.mpr ⟨?_, ih _ _⟩
        intro q hq
        have h1 := (findTsMatches_mem fuel _ _ q hq).1
        have hlen := (matchTsAt_bounds _ _ hm).2.2
        simp only []
        omega

/-- C9: over every raw answer text the collected matches are in
first-occurrence order (strictly increasing start positions), and every
produced citation is built from a match with minutes and seconds of at
most ninety-nine, time equal to sixty times minutes plus seconds, the
zero-padded label, and a whitespace-trimmed description (empty when
absent); values outside conventional ranges are accepted (seconds
ninety-nine parses), while three-digit minutes and one-digit seconds
are rejected by the pattern. -/
theorem callGeminiApi_citation_properties :
    (∀ text : String,
       List.Pairwise (fun a b : Nat × RawMatch => a.1 < b.1)
         (findTsMatches text.data.length text.data 0) ∧
       (∀ c ∈ (callGeminiApiParse text).timestamps, ∃ (m s : Nat) (d : String),
          m ≤ 99 ∧ s ≤ 99 ∧ c.time = 60 * m + s ∧
          c.timestamp = pad2 m ++ ":" ++ pad2 s ∧ c.text = jsTrimString d)) ∧
    (callGeminiApiParse "[00:99]\n").timestamps = [⟨99, "00:99", ""⟩] ∧
    (callGeminiApiParse "[123:45]\n").timestamps = [] ∧
    (callGeminiApiParse "[1:5]\n").timestamps = [] ∧
    (callGeminiApiParse "[1:05]\n").timestamps = [⟨65, "01:05", ""⟩] := by
  refine ⟨?_, by decide, by decide, by decide, by decide⟩
  intro text
  refine ⟨findTsMatches_pairwise _ _ _, ?_⟩
  intro c hc
  have hmap : (callGeminiApiParse text).timestamps =
      (findTsMatches text.data.length text.data 0).map (fun pr => mkCitation pr.2) := rfl
  rw [hmap] at hc
  obtain ⟨pr, hpr, hceq⟩ := List.mem_map.mp hc
  have hb := findTsMatches_mem text.data.length text.data 0 pr hpr
  subst hceq
  cases hdesc : pr.2.desc with
  | some d0 =>
    refine ⟨pr.2.minutes, pr.2.seconds, String.mk d0, hb.2.1, hb.2.2, rfl, rfl, ?_⟩
    simp [mkCitation, hdesc]
  | none =>
    refine ⟨pr.2.minutes, pr.2.seconds, "", hb.2.1, hb.2.2, rfl, rfl, ?_⟩
    simp [mkCitation, hdesc, jsTrimString, jsTrimChars]

/-- Witness for C9: the single citation of a concrete text satisfies
the shape property. -/
theorem callGeminiApi_citation_properties_witness :
    (⟨450, "07:30", "X"⟩ : Citation) ∈ (callGeminiApiParse "[07:30] - X\n").timestamps ∧
    (∃ (m s : Nat) (d : String),
       m ≤ 99 ∧ s ≤ 99 ∧ (Citation.mk 450 "07:30" "X").time = 60 * m + s ∧
       (Citation.mk 450 "07:30" "X").timestamp = pad2 m ++ ":" ++ pad2 s ∧
       (Citation.mk 450 "07:30" "X").text = jsTrimString d) := by
  refine ⟨by decide, ?_⟩
  exact (callGeminiApi_citation_properties.1 "[07:30] - X\n").2
    ⟨450, "07:30", "X"⟩ (by decide)

end QTube
